import Mathlib

/-!
Shallow embedding of the streaming execution client of the
computer-agents SDK:

* `ApiClient.request` (src/cloud/types.ts, lines 1070-1188): deadline timer,
  uniform `ApiClientError`, streamed-mode behaviour;
* `ThreadsResource.sendMessage` (ThreadsResource, lines 195-271): SSE chunk
  buffering, `data: ` line recognition, JSON-frame decoding, observer
  callback fan-out, classification of `response.completed` /
  `stream.completed` / `stream.error`, result construction;
* `ComputerAgentsClient.run` and `_ensureDefaultEnvironment`
  (ComputerAgentsClient.ts, lines 459-510): environment and thread
  resolution with the instance-level default-environment cache.

Byte chunks are modelled after text decoding as `List Char`; JSON parsing
is an explicit parameter `parse : List Char → Option MessageStreamEvent`
(`none` models a `JSON.parse` throw).  All definitions are executable.
-/

set_option autoImplicit false

namespace ComputerAgentsSdk

/-- One run summary as stored from `(data as any).run` by `sendMessage`
(the `run` field of `SendMessageResult`, ThreadsResource lines 60-67). -/
structure RunInfo where
  id : String
  status : String
  tokensInput : Option Nat
  tokensOutput : Option Nat
deriving DecidableEq

/-- A decoded stream event, restricted to the fields `sendMessage` reads:
the `type` discriminator, `(data as any).response?.content`
(`none` models an absent `response`/`content`), `(data as any).run`,
`(data as any).message` and `(data as any).error`. -/
structure MessageStreamEvent where
  type : String
  responseContent : Option String
  run : Option RunInfo
  message : Option String
  errorMsg : Option String
deriving DecidableEq

/-- Splitting of a character sequence into complete (newline-terminated)
lines plus the trailing partial line.  `lineSplit s = (ls, r)` corresponds
to the JS idiom in `sendMessage` (lines 231-232):
`lines = buffer.split('\n'); buffer = lines.pop() || ''` — the popped last
element of `split` is the remainder `r`, the rest are `ls`. -/
def lineSplit : List Char → List (List Char) × List Char
  | [] => ([], [])
  | c :: cs =>
    if c = '\n' then
      ([] :: (lineSplit cs).1, (lineSplit cs).2)
    else
      match lineSplit cs with
      | ([], r) => ([], c :: r)
      | (l :: ls, r) => ((c :: l) :: ls, r)

/-- How the split of a concatenation is assembled from the splits of the
two halves: the first half's remainder glues onto the first complete line
of the second half (or onto its remainder when it has no complete line). -/
def joinSplit : List (List Char) × List Char → List (List Char) × List Char →
    List (List Char) × List Char
  | (ls₁, r₁), ([], r₂) => (ls₁, r₁ ++ r₂)
  | (ls₁, r₁), (l :: ls₂, r₂) => (ls₁ ++ (r₁ ++ l) :: ls₂, r₂)

theorem lineSplit_append (a b : List Char) :
    lineSplit (a ++ b) = joinSplit (lineSplit a) (lineSplit b) := by
  induction a with
  | nil =>
    cases hb : lineSplit b with
    | mk bls br => cases bls <;> simp [lineSplit, joinSplit, hb]
  | cons c a ih =>
    by_cases hc : c = '\n'
    · cases hb : lineSplit b with
      | mk bls br =>
        cases ha : lineSplit a with
        | mk als ar =>
          cases bls <;>
            simp [lineSplit, hc, ih, ha, hb, joinSplit]
    · cases hb : lineSplit b with
      | mk bls br =>
        cases ha : lineSplit a with
        | mk als ar =>
          cases bls <;> cases als <;>
            simp [lineSplit, hc, ih, ha, hb, joinSplit]

theorem lineSplit_no_newline {s : List Char} (h : '\n' ∉ s) :
    lineSplit s = ([], s) := by
  induction s with
  | nil => rfl
  | cons c cs ih =>
    have hc : ¬ c = '\n' := fun hcc => h (hcc ▸ List.mem_cons_self c cs)
    have hcs : '\n' ∉ cs := fun hm => h (List.mem_cons_of_mem c hm)
    simp [lineSplit, hc, ih hcs]

theorem lineSplit_rem_no_newline (s : List Char) : '\n' ∉ (lineSplit s).2 := by
  induction s with
  | nil => simp [lineSplit]
  | cons c cs ih =>
    by_cases hc : c = '\n'
    · simpa [lineSplit, hc] using ih
    · cases h : lineSplit cs with
      | mk ls r =>
        cases ls with
        | nil =>
          rw [h] at ih
          simp only [lineSplit, hc, if_false, h]
          intro hm
          rcases List.mem_cons.mp hm with h1 | h2
          · exact hc h1.symm
          · exact ih h2
        | cons l ls' =>
          rw [h] at ih
          simpa [lineSplit, hc, h] using ih

/-- Feeding the second half after the first: the complete lines of the
whole text are those of the first half followed by those obtained from the
first half's remainder prepended to the second half. -/
theorem lineSplit_append_assoc (x y : List Char) :
    lineSplit (x ++ y) =
      ((lineSplit x).1 ++ (lineSplit ((lineSplit x).2 ++ y)).1,
       (lineSplit ((lineSplit x).2 ++ y)).2) := by
  have h1 := lineSplit_append x y
  have h2 := lineSplit_append (lineSplit x).2 y
  have h3 : lineSplit (lineSplit x).2 = ([], (lineSplit x).2) :=
    lineSplit_no_newline (lineSplit_rem_no_newline x)
  rw [h3] at h2
  cases hy : lineSplit y with
  | mk yls yr =>
    rw [hy] at h1 h2
    cases yls with
    | nil => simp [joinSplit] at h1 h2; simp [h1, h2]
    | cons l ls => simp [joinSplit] at h1 h2; simp [h1, h2]

/-- The literal marker recognized by `line.startsWith('data: ')`
(ThreadsResource line 235). -/
def dataMarker : List Char := "data: ".toList

/-- The character class removed by JavaScript `String.prototype.trim`
as used in the catch guard `line.slice(6).trim()` (line 255); space, tab,
newline, carriage return, vertical tab and form feed cover the inputs the
wire format can produce. -/
def jsWhitespaceChar (c : Char) : Bool :=
  c = ' ' || c = '\t' || c = '\n' || c = '\r' ||
    c = Char.ofNat 11 || c = Char.ofNat 12

/-- Truthiness of `payload.trim()`: the trimmed string is non-empty iff
some character is not whitespace. -/
def trimNonempty (s : List Char) : Bool := s.any (fun c => !(jsWhitespaceChar c))

/-- State accumulated by the `sendMessage` decode loop
(ThreadsResource lines 212-264): the ordered event log `events`, the trace
`observed` of arguments passed to the observer callback, the latest final
content, the latest run details, and the lines reported to `console.warn`. -/
structure AggState where
  events : List MessageStreamEvent
  observed : List MessageStreamEvent
  finalContent : String
  runDetails : Option RunInfo
  warnings : List (List Char)
deriving DecidableEq

def initState : AggState :=
  { events := [], observed := [], finalContent := "", runDetails := none,
    warnings := [] }

/-- The catch handler of the decode loop (lines 253-258): warn about the
line iff the payload after `data: ` is non-blank, otherwise do nothing. -/
def warnIfNonblank (st : AggState) (line : List Char) : AggState :=
  if trimNonempty (line.drop 6) then
    { st with warnings := st.warnings ++ [line] }
  else st

/-- The classification chain of lines 246-252, reached when `JSON.parse`
succeeded and the observer callback (if any) returned normally:
`response.completed` overwrites the final content with
`response?.content || ''`; `stream.completed` overwrites the run details
with `(data as any).run`; `stream.error` throws `new Error(...)`, but that
throw is caught by the surrounding `catch (parseError)` of the same
iteration (lines 253-258), which only warns — so its net effect is
`warnIfNonblank`.  Any other discriminator leaves the state unchanged. -/
def classifyEvent (st : AggState) (line : List Char)
    (data : MessageStreamEvent) : AggState :=
  if data.type = "response.completed" then
    { st with finalContent := data.responseContent.getD "" }
  else if data.type = "stream.completed" then
    { st with runDetails := data.run }
  else if data.type = "stream.error" then
    warnIfNonblank st line
  else st

/-- One iteration of the `for (const line of lines)` body (lines 234-259).
`parse` models `JSON.parse` on the payload (`none` = parse throw); the
observer callback is modelled as `Option (MessageStreamEvent → Bool)`,
where the Bool result records whether the callback throws on that event.
Faithful ordering: the event is pushed onto `events` first, then the
callback is invoked, then classification runs; an exception from the
callback (or the `stream.error` throw) lands in the same catch as a parse
failure, which warns iff the payload is non-blank and continues. -/
def processLine (parse : List Char → Option MessageStreamEvent)
    (cb : Option (MessageStreamEvent → Bool))
    (st : AggState) (line : List Char) : AggState :=
  if line.take 6 = dataMarker then
    match parse (line.drop 6) with
    | none => warnIfNonblank st line
    | some data =>
      match cb with
      | none =>
        classifyEvent { st with events := st.events ++ [data] } line data
      | some f =>
        let st2 := { st with events := st.events ++ [data],
                             observed := st.observed ++ [data] }
        if f data then warnIfNonblank st2 line
        else classifyEvent st2 line data
  else st

def processLines (parse : List Char → Option MessageStreamEvent)
    (cb : Option (MessageStreamEvent → Bool))
    (st : AggState) (lines : List (List Char)) : AggState :=
  lines.foldl (processLine parse cb) st

/-- The chunk loop of `sendMessage` (lines 226-261): each arriving chunk is
appended to the rolling buffer, the complete lines are processed, and the
trailing partial line becomes the new buffer.  Returns the final state and
the unconsumed buffer (which the code never parses). -/
def consumeChunks (parse : List Char → Option MessageStreamEvent)
    (cb : Option (MessageStreamEvent → Bool)) :
    AggState → List Char → List (List Char) → AggState × List Char
  | st, buf, [] => (st, buf)
  | st, buf, ch :: rest =>
    consumeChunks parse cb
      (processLines parse cb st (lineSplit (buf ++ ch)).1)
      (lineSplit (buf ++ ch)).2 rest

theorem consumeChunks_eq (parse : List Char → Option MessageStreamEvent)
    (cb : Option (MessageStreamEvent → Bool))
    (st : AggState) (buf : List Char) (cs : List (List Char))
    (hbuf : '\n' ∉ buf) :
    consumeChunks parse cb st buf cs =
      (processLines parse cb st (lineSplit (buf ++ cs.flatten)).1,
       (lineSplit (buf ++ cs.flatten)).2) := by
  induction cs generalizing st buf with
  | nil =>
    simp [consumeChunks, lineSplit_no_newline hbuf, processLines]
  | cons ch rest ih =>
    have hrem : '\n' ∉ (lineSplit (buf ++ ch)).2 :=
      lineSplit_rem_no_newline (buf ++ ch)
    have hstep := ih (processLines parse cb st (lineSplit (buf ++ ch)).1)
      (lineSplit (buf ++ ch)).2 hrem
    have hsplit := lineSplit_append_assoc (buf ++ ch) rest.flatten
    rw [consumeChunks, hstep]
    have hj : buf ++ (ch :: rest).flatten = buf ++ ch ++ rest.flatten := by
      simp
    rw [hj, hsplit]
    simp [processLines, List.foldl_append]

/-- The uniform error class of the transport (`ApiClientError`,
types.ts lines 1034-1044): message, numeric status, optional code.
The `details` record is not read by any code under study and is omitted. -/
structure ApiClientError where
  message : String
  status : Nat
  code : Option String
deriving DecidableEq

/-- The structured error body the transport tries to parse from a non-2xx
response (`ApiError`: `error`, optional `message`, optional `code`). -/
structure ApiErrorBody where
  errorText : String
  message : Option String
  code : Option String
deriving DecidableEq

/-- JavaScript `a || b` on an optional string: the fallback is used when
the first operand is absent or empty. -/
def strOr (o : Option String) (d : String) : String :=
  match o with
  | some s => if s = "" then d else s
  | none => d

/-- `ApiClient.parseError` (types.ts lines 1170-1188): when the body parses
as a structured error, build `ApiClientError(message || error, status,
code, details)`; when `response.json()` throws, the synthesized
`errorData` is `{error: statusText, message: `HTTP ${status}`}`, whose
`message` field is always non-empty, so the result is
`ApiClientError("HTTP " ++ status, status)` with no code. -/
def parseErrorModel (status : Nat) (errBody : Option ApiErrorBody) :
    ApiClientError :=
  match errBody with
  | some eb =>
    { message := strOr eb.message eb.errorText, status := status,
      code := eb.code }
  | none =>
    { message := "HTTP " ++ toString status, status := status, code := none }

/-- The byte source of a streamed response as the read loop experiences
it: the chunks that `reader.read()` successfully delivers, followed either
by a clean `done` (`readFailure = none`) or by a rejection of the next
`reader.read()` with a raw error carrying the given message
(`readFailure = some msg`) — e.g. a connection reset mid-body surfaces as
a `TypeError` from the stream machinery, not as an `ApiClientError`. -/
structure StreamBody where
  chunks : List (List Char)
  readFailure : Option String
deriving DecidableEq

/-- What `fetch` does for one streamed request, as observed by the catch
logic of `ApiClient.request`: it resolves with a status (`ok`, a numeric
status, the parse of an error body, and an optional byte body whose later
behaviour is a `StreamBody`), rejects with an `AbortError` (the deadline
timer fired while headers were pending), or rejects with any other
transport-level failure before headers. -/
inductive FetchOutcome
  | resolves (ok : Bool) (status : Nat) (errBody : Option ApiErrorBody)
      (body : Option StreamBody)
  | abortError
  | failure (msg : String)
deriving DecidableEq

/-- `ApiClient.request` in stream mode (types.ts lines 1109-1167): a
resolved non-ok response raises the parsed structured error; a resolved ok
response returns its (possibly missing) body; an `AbortError` raises
`ApiClientError("Request timeout after {t}ms", 408, 'TIMEOUT')`; any other
rejection raises `ApiClientError(msg, 500, 'NETWORK_ERROR')`. -/
def requestStream (timeoutMs : Nat) (f : FetchOutcome) :
    Except ApiClientError (Option StreamBody) :=
  match f with
  | .resolves ok status errBody body =>
    if ok then .ok body else .error (parseErrorModel status errBody)
  | .abortError =>
    .error { message := "Request timeout after " ++ toString timeoutMs ++ "ms",
             status := 408, code := some "TIMEOUT" }
  | .failure msg =>
    .error { message := msg, status := 500, code := some "NETWORK_ERROR" }

/-- The three shapes of error `sendMessage` can raise: a propagated
`ApiClientError` from the transport, the bare
`new Error('No response body')` thrown at ThreadsResource line 219 when
the streamed response has no body, and the raw rejection of
`reader.read()` (line 227) when the body source fails mid-stream — the
try block at lines 225-264 has only a `finally`, and `ApiClient.request`
has already returned, so that error propagates to the caller
un-normalized. -/
inductive SdkError
  | api (e : ApiClientError)
  | bare (message : String)
  | readFail (message : String)
deriving DecidableEq

/-- Observation of the numeric `status` a caller can branch on: present on
the uniform `ApiClientError`, absent on a bare `Error` and on a raw read
rejection. -/
def SdkError.statusOf : SdkError → Option Nat
  | .api e => some e.status
  | .bare _ => none
  | .readFail _ => none

/-- Observation of the `code` a caller can branch on. -/
def SdkError.codeOf : SdkError → Option String
  | .api e => e.code
  | .bare _ => none
  | .readFail _ => none

/-- The aggregated value `sendMessage` resolves with
(`SendMessageResult`, ThreadsResource lines 51-73 and 266-270). -/
structure SendMessageResult where
  content : String
  run : Option RunInfo
  events : List MessageStreamEvent
deriving DecidableEq

/-- `ThreadsResource.sendMessage` (lines 195-271) over the outcome of the
transport call: a transport error propagates; a response without a body
raises the bare `No response body` error; a body source that rejects a
`reader.read()` mid-stream lets the raw rejection propagate (the loop's
try has only a `finally`, which releases the reader) — the events decoded
from the chunks delivered before the failure were already handed to the
observer, but the aggregated result is discarded; on a clean `done` the
decode loop's captured content, run details and event log are returned.
The decode loop body itself has no error exit: every throw inside an
iteration (parse failure, observer throw, the `stream.error` throw) is
caught by the per-line catch. -/
def sendMessage (parse : List Char → Option MessageStreamEvent)
    (cb : Option (MessageStreamEvent → Bool))
    (transport : Except ApiClientError (Option StreamBody)) :
    Except SdkError SendMessageResult :=
  match transport with
  | .error e => .error (.api e)
  | .ok none => .error (.bare "No response body")
  | .ok (some body) =>
    match body.readFailure with
    | some msg => .error (.readFail msg)
    | none =>
      let st := (consumeChunks parse cb initState [] body.chunks).1
      .ok { content := st.finalContent, run := st.runDetails,
            events := st.events }

/-- `sendMessage` composed with the transport model. -/
def sendMessageVia (timeoutMs : Nat) (f : FetchOutcome)
    (parse : List Char → Option MessageStreamEvent)
    (cb : Option (MessageStreamEvent → Bool)) :
    Except SdkError SendMessageResult :=
  sendMessage parse cb (requestStream timeoutMs f)

/-- Wall-clock timing of one streamed operation: when the response headers
arrive (`none` = fetch never resolves) and when the byte source completes
(`none` = the body never finishes). -/
structure StreamTiming where
  headersDelay : Option Nat
  bodyDone : Option Nat
deriving DecidableEq

/-- Whether the whole streamed operation finishes within `d` ms. -/
def completesWithin (d : Nat) (t : StreamTiming) : Bool :=
  match t.bodyDone with
  | some b => b ≤ d
  | none => false

/-- Temporal outcomes of the composed operation: the 408 `TIMEOUT` raise,
the read loop hanging forever, or normal completion of the loop. -/
inductive StreamedOpResult
  | raisedTimeout (limit : Nat)
  | hangs
  | completed
deriving DecidableEq

/-- Timing model of `ApiClient.request` in stream mode composed with the
`sendMessage` read loop.  Faithful to types.ts lines 1109-1123: the abort
timer is armed before `fetch` and cleared by `clearTimeout(timeoutId)` the
moment `fetch` resolves with headers, so it can fire only while headers are
pending.  Once the body is being read (ThreadsResource lines 226-261), no
timer is armed, so the loop exits only when the source reports `done`:
if the body never completes the loop hangs. -/
def streamedOperation (timeoutMs : Nat) (t : StreamTiming) :
    StreamedOpResult :=
  match t.headersDelay with
  | none => .raisedTimeout timeoutMs
  | some h =>
    if timeoutMs < h then .raisedTimeout timeoutMs
    else
      match t.bodyDone with
      | none => .hangs
      | some _ => .completed

/-- Whether `reader.releaseLock()` (the `finally` at ThreadsResource
lines 262-264) runs: the `finally` is entered only when the read loop
exits; on a pre-body timeout no reader was ever obtained, and on a hung
body the loop never exits. -/
def releaseRuns : StreamedOpResult → Bool
  | .completed => true
  | .raisedTimeout _ => false
  | .hangs => false

/-- An environment record, restricted to the fields the orchestrator
reads: `id` and the `isDefault` flag. -/
structure Environment where
  id : String
  isDefault : Bool
deriving DecidableEq

/-- The outbound resource-layer calls the orchestrator can make while
resolving an environment and a thread, with the argument values it
passes. -/
inductive ApiCall
  | listEnvironments
  | createEnvironment (name : String) (internetAccess : Bool)
      (isDefault : Bool)
  | createThread (environmentId : String)
deriving DecidableEq

def isEnvResolutionCall : ApiCall → Bool
  | .listEnvironments => true
  | .createEnvironment _ _ _ => true
  | .createThread _ => false

def isListEnvCall : ApiCall → Bool
  | .listEnvironments => true
  | _ => false

def isThreadCreateCall : ApiCall → Bool
  | .createThread _ => true
  | _ => false

/-- JavaScript truthiness of an optional string (`string | null |
undefined`): truthy iff present and non-empty.  Used for
`if (this._defaultEnvironmentId)`, `options.environmentId || ...` and
`if (!threadId)`. -/
def strTruthy : Option String → Bool
  | some s => !(s == "")
  | none => false

/-- Result of resolving an environment id: the id to use, the cache field
afterwards, and the resource calls that were made. -/
structure EnvResolution where
  envId : String
  cache : Option String
  calls : List ApiCall
deriving DecidableEq

/-- `ComputerAgentsClient._ensureDefaultEnvironment`
(ComputerAgentsClient.ts lines 491-510): return the cached id when the
cache is truthy; otherwise list environments, pick the first flagged
default, or create `{name: 'default', internetAccess: true,
isDefault: true}`, then store the chosen id in the cache and return it.
`listResp` and `createResp` are the server's responses to those calls. -/
def ensureDefaultEnvironment (cache : Option String)
    (listResp : List Environment) (createResp : Environment) :
    EnvResolution :=
  if strTruthy cache then
    { envId := cache.getD "", cache := cache, calls := [] }
  else
    match listResp.find? (fun e => e.isDefault) with
    | some env =>
      { envId := env.id, cache := some env.id, calls := [.listEnvironments] }
    | none =>
      { envId := createResp.id, cache := some createResp.id,
        calls := [.listEnvironments,
                  .createEnvironment "default" true true] }

/-- The value `ComputerAgentsClient.run` resolves with (`RunResult`). -/
structure RunResult where
  content : String
  threadId : String
  run : Option RunInfo
deriving DecidableEq

/-- The server responses one `run()` invocation consumes: the environment
list, the created environment, the created thread's id, and the outcome of
the streamed message transport call. -/
structure RunServerResponses where
  envList : List Environment
  envCreate : Environment
  threadCreate : String
  messageTransport : Except ApiClientError (Option StreamBody)

/-- Everything observable about one `run()` invocation: its result, the
default-environment cache afterwards, the resource calls made, and the
resolved `environmentId` local. -/
structure RunOutcome where
  result : Except SdkError RunResult
  newCache : Option String
  calls : List ApiCall
  envUsed : String

/-- `ComputerAgentsClient.run` (ComputerAgentsClient.ts lines 459-486):
`environmentId = options.environmentId || await
this._ensureDefaultEnvironment()`; a falsy `options.threadId` triggers
`threads.create({environmentId})` whose response id becomes `threadId`;
then `threads.sendMessage(threadId, {content: task, ...})` runs and the
result is repackaged with the thread id. -/
def clientRun (parse : List Char → Option MessageStreamEvent)
    (cb : Option (MessageStreamEvent → Bool)) (cache : Option String)
    (optEnvId optThreadId : Option String) (srv : RunServerResponses) :
    RunOutcome :=
  let er := if strTruthy optEnvId then
      { envId := optEnvId.getD "", cache := cache,
        calls := [] : EnvResolution }
    else ensureDefaultEnvironment cache srv.envList srv.envCreate
  let threadId := if strTruthy optThreadId then optThreadId.getD ""
    else srv.threadCreate
  let threadCalls : List ApiCall := if strTruthy optThreadId then []
    else [.createThread er.envId]
  let result : Except SdkError RunResult :=
    match sendMessage parse cb srv.messageTransport with
    | .error e => .error e
    | .ok r =>
      .ok { content := r.content, threadId := threadId, run := r.run }
  { result := result, newCache := er.cache,
    calls := er.calls ++ threadCalls, envUsed := er.envId }

/-- The event (if any) a single line decodes to: lines not starting with
`data: ` are skipped, the payload of a `data: ` line is handed to
`JSON.parse`. -/
def decodeLine (parse : List Char → Option MessageStreamEvent)
    (l : List Char) : Option MessageStreamEvent :=
  if l.take 6 = dataMarker then parse (l.drop 6) else none

/-- The sequence of events decoded from a sequence of lines, in wire
order. -/
def decodedEvents (parse : List Char → Option MessageStreamEvent)
    (ls : List (List Char)) : List MessageStreamEvent :=
  ls.filterMap (decodeLine parse)

/-- The content/run extraction of lines 246-252 viewed per event:
`response.completed` overwrites the content, `stream.completed` overwrites
the run details, everything else (including the swallowed `stream.error`)
changes neither. -/
def classifyFold (acc : String × Option RunInfo) (e : MessageStreamEvent) :
    String × Option RunInfo :=
  if e.type = "response.completed" then (e.responseContent.getD "", acc.2)
  else if e.type = "stream.completed" then (acc.1, e.run)
  else acc

/-- The observer callback is benign: absent, or never throwing. -/
def cbNeverThrows : Option (MessageStreamEvent → Bool) → Prop
  | none => True
  | some f => ∀ e, f e = false

theorem warnIfNonblank_events (st : AggState) (l : List Char) :
    (warnIfNonblank st l).events = st.events := by
  unfold warnIfNonblank; split <;> rfl

theorem warnIfNonblank_observed (st : AggState) (l : List Char) :
    (warnIfNonblank st l).observed = st.observed := by
  unfold warnIfNonblank; split <;> rfl

theorem warnIfNonblank_content (st : AggState) (l : List Char) :
    (warnIfNonblank st l).finalContent = st.finalContent := by
  unfold warnIfNonblank; split <;> rfl

theorem warnIfNonblank_run (st : AggState) (l : List Char) :
    (warnIfNonblank st l).runDetails = st.runDetails := by
  unfold warnIfNonblank; split <;> rfl

theorem classifyEvent_events (st : AggState) (l : List Char)
    (data : MessageStreamEvent) :
    (classifyEvent st l data).events = st.events := by
  unfold classifyEvent
  split
  · rfl
  · split
    · rfl
    · split
      · exact warnIfNonblank_events st l
      · rfl

theorem classifyEvent_observed (st : AggState) (l : List Char)
    (data : MessageStreamEvent) :
    (classifyEvent st l data).observed = st.observed := by
  unfold classifyEvent
  split
  · rfl
  · split
    · rfl
    · split
      · exact warnIfNonblank_observed st l
      · rfl

theorem classifyEvent_classifies (st : AggState) (l : List Char)
    (data : MessageStreamEvent) :
    ((classifyEvent st l data).finalContent,
     (classifyEvent st l data).runDetails) =
      classifyFold (st.finalContent, st.runDetails) data := by
  unfold classifyEvent classifyFold
  split
  · rfl
  · split
    · rfl
    · split
      · rw [warnIfNonblank_content st l, warnIfNonblank_run st l]
      · rfl

/-- Every decoded event — and only decoded events — lands in the event
log, appended in arrival order; this holds for any observer behaviour. -/
theorem processLine_events (parse : List Char → Option MessageStreamEvent)
    (cb : Option (MessageStreamEvent → Bool)) (st : AggState)
    (l : List Char) :
    (processLine parse cb st l).events =
      st.events ++ (decodeLine parse l).toList := by
  unfold processLine decodeLine
  split
  · cases hp : parse (l.drop 6) with
    | none => simp [warnIfNonblank_events]
    | some data =>
      cases cb with
      | none => simp [classifyEvent_events]
      | some f =>
        by_cases hf : f data <;>
          simp [hf, warnIfNonblank_events, classifyEvent_events]
  · simp

/-- With a supplied callback, the same decoded events are passed to the
observer, in the same order — also when the callback throws (it was
invoked before the exception propagated to the catch). -/
theorem processLine_observed (parse : List Char → Option MessageStreamEvent)
    (f : MessageStreamEvent → Bool) (st : AggState) (l : List Char) :
    (processLine parse (some f) st l).observed =
      st.observed ++ (decodeLine parse l).toList := by
  unfold processLine decodeLine
  split
  · cases hp : parse (l.drop 6) with
    | none => simp [warnIfNonblank_observed]
    | some data =>
      by_cases hf : f data <;>
        simp [hf, warnIfNonblank_observed, classifyEvent_observed]
  · simp

/-- With a benign callback, the content/run capture of one line is the
event-level fold over the event that line decodes to. -/
theorem processLine_classifies
    (parse : List Char → Option MessageStreamEvent)
    (cb : Option (MessageStreamEvent → Bool)) (hcb : cbNeverThrows cb)
    (st : AggState) (l : List Char) :
    ((processLine parse cb st l).finalContent,
     (processLine parse cb st l).runDetails) =
      (decodeLine parse l).toList.foldl classifyFold
        (st.finalContent, st.runDetails) := by
  unfold processLine decodeLine
  split
  · cases hp : parse (l.drop 6) with
    | none => simp [warnIfNonblank_content, warnIfNonblank_run]
    | some data =>
      cases cb with
      | none => simpa using classifyEvent_classifies _ l data
      | some f =>
        have hf : f data = false := hcb data
        simpa [hf] using classifyEvent_classifies _ l data
  · simp

theorem processLines_events (parse : List Char → Option MessageStreamEvent)
    (cb : Option (MessageStreamEvent → Bool)) (st : AggState)
    (ls : List (List Char)) :
    (processLines parse cb st ls).events =
      st.events ++ decodedEvents parse ls := by
  induction ls generalizing st with
  | nil => simp [processLines, decodedEvents]
  | cons l ls ih =>
    rw [processLines, List.foldl_cons, ← processLines, ih,
      processLine_events]
    cases h : decodeLine parse l with
    | none => simp [decodedEvents, h]
    | some e => simp [decodedEvents, h]

theorem processLines_observed
    (parse : List Char → Option MessageStreamEvent)
    (f : MessageStreamEvent → Bool) (st : AggState)
    (ls : List (List Char)) :
    (processLines parse (some f) st ls).observed =
      st.observed ++ decodedEvents parse ls := by
  induction ls generalizing st with
  | nil => simp [processLines, decodedEvents]
  | cons l ls ih =>
    rw [processLines, List.foldl_cons, ← processLines, ih,
      processLine_observed]
    cases h : decodeLine parse l with
    | none => simp [decodedEvents, h]
    | some e => simp [decodedEvents, h]

theorem processLines_classifies
    (parse : List Char → Option MessageStreamEvent)
    (cb : Option (MessageStreamEvent → Bool)) (hcb : cbNeverThrows cb)
    (st : AggState) (ls : List (List Char)) :
    ((processLines parse cb st ls).finalContent,
     (processLines parse cb st ls).runDetails) =
      (decodedEvents parse ls).foldl classifyFold
        (st.finalContent, st.runDetails) := by
  induction ls generalizing st with
  | nil => simp [processLines, decodedEvents]
  | cons l ls ih =>
    rw [processLines, List.foldl_cons, ← processLines, ih,
      processLine_classifies parse cb hcb]
    cases h : decodeLine parse l with
    | none => simp [decodedEvents, h]
    | some e => simp [decodedEvents, h]

/-- The content the claim predicts: that of the last `response.completed`
event, or the empty string when there is none. -/
def lastResponseContent (evs : List MessageStreamEvent) : String :=
  match (evs.filter (fun x => x.type == "response.completed")).getLast? with
  | some x => x.responseContent.getD ""
  | none => ""

theorem classifyFold_content (evs : List MessageStreamEvent)
    (acc : String × Option RunInfo) :
    (evs.foldl classifyFold acc).1 =
      match (evs.filter (fun x => x.type == "response.completed")).getLast?
      with
      | some x => x.responseContent.getD ""
      | none => acc.1 := by
  induction evs using List.reverseRecOn generalizing acc with
  | nil => simp
  | append_singleton evs e ih =>
    rw [List.foldl_append, List.foldl_cons, List.foldl_nil,
      List.filter_append]
    by_cases he : e.type = "response.completed"
    · simp [classifyFold, he]
    · have hnil : (List.filter (fun x => x.type == "response.completed") [e])
          = [] := by simp [he]
      have hacc : ∀ X : String × Option RunInfo,
          (classifyFold X e).1 = X.1 := by
        intro X
        unfold classifyFold
        split
        · exact absurd (by assumption) he
        · split <;> rfl
      rw [hnil, List.append_nil, hacc, ih]

theorem classifyFold_run (evs : List MessageStreamEvent)
    (acc : String × Option RunInfo) :
    (evs.foldl classifyFold acc).2 =
      match (evs.filter (fun x => x.type == "stream.completed")).getLast?
      with
      | some x => x.run
      | none => acc.2 := by
  induction evs using List.reverseRecOn generalizing acc with
  | nil => simp
  | append_singleton evs e ih =>
    rw [List.foldl_append, List.foldl_cons, List.foldl_nil,
      List.filter_append]
    by_cases he : e.type = "stream.completed"
    · have hne : ¬ e.type = "response.completed" := by
        rw [he]; intro h; exact absurd h (by decide)
      simp [classifyFold, he, hne]
    · have hnil : (List.filter (fun x => x.type == "stream.completed") [e])
          = [] := by simp [he]
      have hacc : ∀ X : String × Option RunInfo,
          (classifyFold X e).2 = X.2 := by
        intro X
        simp only [classifyFold, he, if_false]
        split <;> rfl
      rw [hnil, List.append_nil, hacc, ih]

/-- A finite-table stand-in for `JSON.parse` on concrete wire payloads:
payloads in the table decode to the associated event, everything else
throws. -/
def parseStub (table : List (List Char × MessageStreamEvent))
    (s : List Char) : Option MessageStreamEvent :=
  (table.find? (fun p => p.1 == s)).map (fun p => p.2)

def evStarted : MessageStreamEvent :=
  { type := "response.started", responseContent := none, run := none,
    message := none, errorMsg := none }

def runHi : RunInfo :=
  { id := "run_1", status := "completed", tokensInput := some 10,
    tokensOutput := some 2 }

def evHi : MessageStreamEvent :=
  { type := "response.completed", responseContent := some "Hi", run := none,
    message := none, errorMsg := none }

def evDone : MessageStreamEvent :=
  { type := "stream.completed", responseContent := none, run := some runHi,
    message := none, errorMsg := none }

def evBoom : MessageStreamEvent :=
  { type := "stream.error", responseContent := none, run := none,
    message := some "boom", errorMsg := none }

def pStarted : List Char := "\x7b\"type\":\"response.started\"\x7d".toList

def pHi : List Char :=
  "\x7b\"type\":\"response.completed\",\"response\":\x7b\"content\":\"Hi\"\x7d\x7d".toList

def pDone : List Char :=
  "\x7b\"type\":\"stream.completed\",\"run\":\x7b\"id\":\"run_1\"\x7d\x7d".toList

def pBoom : List Char :=
  "\x7b\"type\":\"stream.error\",\"message\":\"boom\"\x7d".toList

def parseFix : List Char → Option MessageStreamEvent :=
  parseStub [(pStarted, evStarted), (pHi, evHi), (pDone, evDone),
             (pBoom, evBoom)]

/-- A wire line carrying the given payload. -/
def dataLine (p : List Char) : List Char := "data: ".toList ++ p ++ ['\n']

/-- Claim C4: the decoder is invariant under how the byte stream is cut
into chunks — two partitions of the same text produce identical aggregator
states (event log, observer trace, content, run details, warnings) and an
identical trailing buffer; moreover the state is exactly the result of
processing the complete (newline-terminated) lines of the whole text, so
the trailing partial line is never parsed. -/
theorem sendMessage_chunk_boundary_invariance
    (parse : List Char → Option MessageStreamEvent)
    (cb : Option (MessageStreamEvent → Bool))
    (cs ds : List (List Char)) (h : cs.flatten = ds.flatten) :
    consumeChunks parse cb initState [] cs =
        consumeChunks parse cb initState [] ds
    ∧ consumeChunks parse cb initState [] cs =
        (processLines parse cb initState (lineSplit cs.flatten).1,
         (lineSplit cs.flatten).2) := by
  have h1 := consumeChunks_eq parse cb initState [] cs (by simp)
  have h2 := consumeChunks_eq parse cb initState [] ds (by simp)
  simp only [List.nil_append] at h1 h2
  exact ⟨by rw [h1, h2, h], h1⟩

/-- Witness for C4 at the spec's own example: the frame
`data: {"type":"response.started"}` split as `"data: {\"ty"` +
`"pe\":\"response.started\"}\n\n"` decodes identically to the unsplit
text. -/
theorem sendMessage_chunk_boundary_invariance_witness :
    consumeChunks parseFix none initState []
        ["data: \x7b\"ty".toList,
         "pe\":\"response.started\"\x7d\n\n".toList] =
      consumeChunks parseFix none initState []
        [("data: \x7b\"type\":\"response.started\"\x7d\n\n").toList] :=
  (sendMessage_chunk_boundary_invariance parseFix none _ _ (by decide)).1

/-- Claim C1 (code bug): on the stream
`data: {stream.error "boom"}` followed by `data: {response.started}`, the
`throw new Error(...)` at line 251 is caught by the `catch (parseError)`
of the same loop iteration, so `sendMessage` does NOT raise: it logs a
warning for the error line, keeps processing the later frame, delivers
both events to the observer, and resolves normally — contradicting the
claimed raise-before-later-frames behaviour. -/
theorem stream_error_frame_swallowed :
    sendMessage parseFix (some (fun _ => false))
        (Except.ok (some { chunks := [dataLine pBoom ++ dataLine pStarted],
                           readFailure := none })) =
      Except.ok { content := "", run := none, events := [evBoom, evStarted] }
    ∧ ((consumeChunks parseFix (some (fun _ => false)) initState []
          [dataLine pBoom ++ dataLine pStarted]).1).observed =
        [evBoom, evStarted]
    ∧ ((consumeChunks parseFix (some (fun _ => false)) initState []
          [dataLine pBoom ++ dataLine pStarted]).1).warnings =
        ["data: ".toList ++ pBoom] := ⟨rfl, by decide, by decide⟩

/-- Claim C2 (code bug): with a 50 ms deadline, headers arriving at once
and a body source that never completes, the abort timer has already been
cleared when body streaming starts, so the operation hangs: no 408
`TIMEOUT` is raised even though the operation never completes within the
deadline, and `reader.releaseLock()` never runs. -/
theorem deadline_not_enforced_after_headers :
    streamedOperation 50 { headersDelay := some 0, bodyDone := none } =
        StreamedOpResult.hangs
    ∧ completesWithin 50 { headersDelay := some 0, bodyDone := none } = false
    ∧ releaseRuns
        (streamedOperation 50 { headersDelay := some 0, bodyDone := none }) =
        false := by decide

/-- Claim C5: a `data: ` line whose non-empty payload fails to parse is
reported to the diagnostic channel and dropped (the event log is
untouched), a blank payload is dropped silently with no diagnostic, and in
both cases the loop is unaffected otherwise and continues with the
remaining lines; the per-line catch means no exception escapes the decoder
for this case. -/
theorem malformed_payload_nonfatal
    (parse : List Char → Option MessageStreamEvent)
    (cb : Option (MessageStreamEvent → Bool)) (st : AggState)
    (l : List Char) (rest : List (List Char))
    (hdata : l.take 6 = dataMarker) (hfail : parse (l.drop 6) = none) :
    (processLine parse cb st l).events = st.events
    ∧ (trimNonempty (l.drop 6) = true →
        processLine parse cb st l =
          { st with warnings := st.warnings ++ [l] })
    ∧ (trimNonempty (l.drop 6) = false → processLine parse cb st l = st)
    ∧ processLines parse cb st (l :: rest) =
        processLines parse cb (processLine parse cb st l) rest := by
  refine ⟨?_, ?_, ?_, rfl⟩
  · rw [processLine_events]
    simp [decodeLine, hdata, hfail]
  · intro hne
    simp [processLine, hdata, hfail, warnIfNonblank, hne]
  · intro hbl
    simp [processLine, hdata, hfail, warnIfNonblank, hbl]

/-- Witness for C5: a malformed non-empty payload is warned about and
dropped, and decoding continues. -/
theorem malformed_payload_nonfatal_witness :
    (processLine parseFix none initState "data: oops".toList).events =
        initState.events
    ∧ (trimNonempty ("data: oops".toList.drop 6) = true →
        processLine parseFix none initState "data: oops".toList =
          { initState with
              warnings := initState.warnings ++ ["data: oops".toList] })
    ∧ (trimNonempty ("data: oops".toList.drop 6) = false →
        processLine parseFix none initState "data: oops".toList = initState)
    ∧ processLines parseFix none initState
          ["data: oops".toList, dataLine pStarted] =
        processLines parseFix none
          (processLine parseFix none initState "data: oops".toList)
          [dataLine pStarted] :=
  malformed_payload_nonfatal parseFix none initState "data: oops".toList
    [dataLine pStarted] (by decide) (by decide)

/-- Claim C3: for a stream whose decoded events end in exactly one
`stream.completed` event and contain no `stream.error`, `sendMessage`
resolves (not raises) with `run` equal to that event's run payload,
`content` equal to the content of the last `response.completed` seen (the
empty string when none arrived), and the full ordered event log. -/
theorem sendMessage_clean_stream_result
    (parse : List Char → Option MessageStreamEvent)
    (cb : Option (MessageStreamEvent → Bool)) (hcb : cbNeverThrows cb)
    (chunks : List (List Char))
    (evs' : List MessageStreamEvent) (e : MessageStreamEvent)
    (hdec : decodedEvents parse (lineSplit chunks.flatten).1 = evs' ++ [e])
    (hty : e.type = "stream.completed")
    (huniq : ∀ x ∈ evs', x.type ≠ "stream.completed")
    (hnoerr : ∀ x ∈ evs' ++ [e], x.type ≠ "stream.error") :
    sendMessage parse cb
        (Except.ok (some { chunks := chunks, readFailure := none })) =
      Except.ok { content := lastResponseContent (evs' ++ [e]),
                  run := e.run, events := evs' ++ [e] } := by
  have hsplit : consumeChunks parse cb initState [] chunks =
      (processLines parse cb initState (lineSplit chunks.flatten).1,
       (lineSplit chunks.flatten).2) := by
    simpa using consumeChunks_eq parse cb initState [] chunks (by simp)
  have hstart : sendMessage parse cb
      (Except.ok (some { chunks := chunks, readFailure := none })) =
      Except.ok
        { content := (consumeChunks parse cb initState [] chunks).1.finalContent,
          run := (consumeChunks parse cb initState [] chunks).1.runDetails,
          events := (consumeChunks parse cb initState [] chunks).1.events } :=
    rfl
  rw [hstart, hsplit]
  have hev : (processLines parse cb initState
      (lineSplit chunks.flatten).1).events = evs' ++ [e] := by
    rw [processLines_events, hdec]
    rfl
  have hcr := processLines_classifies parse cb hcb initState
    (lineSplit chunks.flatten).1
  rw [hdec] at hcr
  have hcontent : (processLines parse cb initState
      (lineSplit chunks.flatten).1).finalContent =
      lastResponseContent (evs' ++ [e]) := by
    have h1 := congrArg Prod.fst hcr
    simp only at h1
    rw [h1, classifyFold_content]
    unfold lastResponseContent
    cases ((evs' ++ [e]).filter
        (fun x => x.type == "response.completed")).getLast? <;> rfl
  have hrun : (processLines parse cb initState
      (lineSplit chunks.flatten).1).runDetails = e.run := by
    have h2 := congrArg Prod.snd hcr
    simp only at h2
    rw [h2, classifyFold_run, List.filter_append]
    have he : (List.filter (fun x => x.type == "stream.completed") [e])
        = [e] := by simp [hty]
    rw [he, List.getLast?_concat]
  rw [hcontent, hrun, hev]

/-- Witness for C3 at the spec's end-to-end scenario: `response.started`,
`response.item.completed`-free stream with `response.completed` content
`Hi` and a final `stream.completed`. -/
theorem sendMessage_clean_stream_result_witness :
    sendMessage parseFix none
        (Except.ok (some { chunks := [dataLine pStarted ++ dataLine pHi,
                                      dataLine pDone],
                           readFailure := none })) =
      Except.ok { content := lastResponseContent ([evStarted, evHi] ++ [evDone]),
                  run := evDone.run,
                  events := [evStarted, evHi] ++ [evDone] } :=
  sendMessage_clean_stream_result parseFix none trivial
    [dataLine pStarted ++ dataLine pHi, dataLine pDone]
    [evStarted, evHi] evDone (by decide) (by decide) (by decide) (by decide)

/-- Claim C6 counterexample: a 2xx streamed response whose body is missing
makes `sendMessage` throw the bare `new Error('No response body')`
(ThreadsResource line 219), which carries neither a numeric `status` nor a
`code` — so not every failure path raises the uniform inspectable error. -/
theorem missing_body_error_lacks_status :
    sendMessageVia 600000 (FetchOutcome.resolves true 200 none none)
        parseFix none =
      Except.error (SdkError.bare "No response body")
    ∧ SdkError.statusOf (SdkError.bare "No response body") = none
    ∧ SdkError.codeOf (SdkError.bare "No response body") = none :=
  ⟨rfl, rfl, rfl⟩

/-- Claim C6 as amended: request-time transport failures surface as the
uniform `ApiClientError` — deadline expiry as status 408, code `TIMEOUT`,
with the elapsed-limit value in the message, and any other pre-header
transport rejection as status 500, code `NETWORK_ERROR` — but two failure
paths raise errors carrying neither status nor code: a streamed 2xx
response with a missing body raises the bare `Error('No response body')`,
and a body source that fails mid-stream lets the raw `reader.read()`
rejection propagate unwrapped; every error `sendMessage` raises is one of
these three shapes. -/
theorem sendMessage_error_surface_amended (t : Nat)
    (parse : List Char → Option MessageStreamEvent)
    (cb : Option (MessageStreamEvent → Bool)) :
    sendMessageVia t FetchOutcome.abortError parse cb =
        Except.error (SdkError.api
          { message := "Request timeout after " ++ toString t ++ "ms",
            status := 408, code := some "TIMEOUT" })
    ∧ (∀ msg, sendMessageVia t (FetchOutcome.failure msg) parse cb =
        Except.error (SdkError.api
          { message := msg, status := 500, code := some "NETWORK_ERROR" }))
    ∧ (∀ chunks msg,
        sendMessageVia t
            (FetchOutcome.resolves true 200 none
              (some { chunks := chunks, readFailure := some msg }))
            parse cb =
          Except.error (SdkError.readFail msg)
        ∧ SdkError.statusOf (SdkError.readFail msg) = none
        ∧ SdkError.codeOf (SdkError.readFail msg) = none)
    ∧ (∀ f e, sendMessageVia t f parse cb = Except.error e →
        e = SdkError.bare "No response body"
        ∨ (∃ msg, e = SdkError.readFail msg)
        ∨ ∃ a, e = SdkError.api a) := by
  refine ⟨rfl, fun msg => rfl, fun chunks msg => ⟨rfl, rfl, rfl⟩, ?_⟩
  intro f e h
  cases f with
  | resolves ok status errBody body =>
    cases ok with
    | true =>
      cases body with
      | none =>
        left
        simpa [sendMessageVia, requestStream, sendMessage] using h.symm
      | some b =>
        cases hb : b.readFailure with
        | none =>
          simp [sendMessageVia, requestStream, sendMessage, hb] at h
        | some msg =>
          right; left
          refine ⟨msg, ?_⟩
          simpa [sendMessageVia, requestStream, sendMessage, hb]
            using h.symm
    | false =>
      right; right
      refine ⟨parseErrorModel status errBody, ?_⟩
      simpa [sendMessageVia, requestStream, sendMessage] using h.symm
  | abortError =>
    right; right
    exact ⟨_, by simpa [sendMessageVia, requestStream, sendMessage]
      using h.symm⟩
  | failure msg =>
    right; right
    exact ⟨_, by simpa [sendMessageVia, requestStream, sendMessage]
      using h.symm⟩

/-- Witness for the amended C6: the exhaustiveness conjunct applied at the
missing-body outcome classifies its error as the bare one. -/
theorem sendMessage_error_surface_amended_witness :
    SdkError.bare "No response body" = SdkError.bare "No response body"
    ∨ (∃ msg, SdkError.bare "No response body" = SdkError.readFail msg)
    ∨ ∃ a, SdkError.bare "No response body" = SdkError.api a :=
  (sendMessage_error_surface_amended 50 parseFix none).2.2.2
    (FetchOutcome.resolves true 200 none none)
    (SdkError.bare "No response body") rfl

/-- Claim C9: with an observer supplied, every decoded event is appended
to the event log and passed to the observer before the next frame is
processed, so the observer trace equals the event log — every event seen
exactly once, in wire arrival order; an event with an unrecognized type
discriminator is still logged and delivered but changes neither the
captured content nor the run details. -/
theorem events_logged_and_observed
    (parse : List Char → Option MessageStreamEvent)
    (f : MessageStreamEvent → Bool) (hf : ∀ e, f e = false) :
    (∀ chunks : List (List Char),
      ((consumeChunks parse (some f) initState [] chunks).1).observed =
        ((consumeChunks parse (some f) initState [] chunks).1).events)
    ∧ (∀ (st : AggState) (l : List Char) (data : MessageStreamEvent),
        l.take 6 = dataMarker → parse (l.drop 6) = some data →
        data.type ≠ "response.completed" →
        data.type ≠ "stream.completed" →
        data.type ≠ "stream.error" →
        processLine parse (some f) st l =
          { st with events := st.events ++ [data],
                    observed := st.observed ++ [data] }) := by
  constructor
  · intro chunks
    have hsplit : consumeChunks parse (some f) initState [] chunks =
        (processLines parse (some f) initState
           (lineSplit chunks.flatten).1,
         (lineSplit chunks.flatten).2) := by
      simpa using consumeChunks_eq parse (some f) initState [] chunks
        (by simp)
    rw [hsplit]
    rw [processLines_observed, processLines_events]
    rfl
  · intro st l data hl hp h1 h2 h3
    simp [processLine, hl, hp, hf data, classifyEvent, h1, h2, h3]

/-- Witness for C9: the unsplit two-frame stream has equal observer trace
and event log, and an unrecognized discriminator is logged, delivered and
not classified. -/
theorem events_logged_and_observed_witness :
    ((consumeChunks parseFix (some (fun _ => false)) initState []
        [dataLine pStarted ++ dataLine pHi]).1).observed =
      ((consumeChunks parseFix (some (fun _ => false)) initState []
        [dataLine pStarted ++ dataLine pHi]).1).events :=
  (events_logged_and_observed parseFix (fun _ => false) (fun _ => rfl)).1
    [dataLine pStarted ++ dataLine pHi]

/-- Claim C10: when the observer callback throws on an event, the
exception lands in the same per-iteration catch that handles JSON parse
failures: the event stays in the log and in the observer trace, at most a
diagnostic warning is emitted, content/run classification for that event
is skipped (both fields are left untouched), and the loop continues with
the next line — nothing propagates to the caller. -/
theorem observer_throw_swallowed
    (parse : List Char → Option MessageStreamEvent)
    (f : MessageStreamEvent → Bool) (st : AggState) (l : List Char)
    (data : MessageStreamEvent) (rest : List (List Char))
    (hdata : l.take 6 = dataMarker) (hparse : parse (l.drop 6) = some data)
    (hthrow : f data = true) :
    processLine parse (some f) st l =
      { st with events := st.events ++ [data],
                observed := st.observed ++ [data],
                warnings := st.warnings ++
                  (if trimNonempty (l.drop 6) then [l] else []) }
    ∧ processLines parse (some f) st (l :: rest) =
        processLines parse (some f) (processLine parse (some f) st l)
          rest := by
  refine ⟨?_, rfl⟩
  simp only [processLine, hdata, if_pos, hparse, hthrow, if_true,
    warnIfNonblank]
  split <;> simp

/-- Witness for C10: a callback that throws on every event swallows the
exception, keeps the event, and the decode loop carries on. -/
theorem observer_throw_swallowed_witness :
    processLine parseFix (some (fun _ => true)) initState
        (dataLine pStarted).dropLast =
      { initState with
          events := initState.events ++ [evStarted],
          observed := initState.observed ++ [evStarted],
          warnings := initState.warnings ++
            (if trimNonempty ((dataLine pStarted).dropLast.drop 6)
             then [(dataLine pStarted).dropLast] else []) }
    ∧ processLines parseFix (some (fun _ => true)) initState
          [(dataLine pStarted).dropLast, (dataLine pHi).dropLast] =
        processLines parseFix (some (fun _ => true))
          (processLine parseFix (some (fun _ => true)) initState
            (dataLine pStarted).dropLast)
          [(dataLine pHi).dropLast] :=
  observer_throw_swallowed parseFix (fun _ => true) initState
    (dataLine pStarted).dropLast evStarted [(dataLine pHi).dropLast]
    (by decide) (by decide) rfl

theorem strTruthy_none : strTruthy none = false := rfl

theorem strTruthy_some (s : String) : strTruthy (some s) = !(s == "") := rfl

theorem clientRun_list_calls_le_one
    (parse : List Char → Option MessageStreamEvent)
    (cb : Option (MessageStreamEvent → Bool)) (cache : Option String)
    (optEnvId optThreadId : Option String) (srv : RunServerResponses) :
    (((clientRun parse cb cache optEnvId optThreadId srv).calls).filter
        isListEnvCall).length ≤ 1 := by
  unfold clientRun ensureDefaultEnvironment
  by_cases hE : strTruthy optEnvId = true <;>
    by_cases hT : strTruthy optThreadId = true <;>
    by_cases hC : strTruthy cache = true <;>
    cases hF : srv.envList.find? (fun e => e.isDefault) <;>
    simp [hE, hT, hC, hF, isListEnvCall]

/-- Claim C7: environment resolution in `run()` — an explicitly supplied
(non-empty) `environmentId` is used unchanged with no resolution calls and
no cache write; a populated cache short-circuits resolution; an empty
cache triggers one list call, picks the environment flagged default when
one exists, otherwise additionally creates `{name: 'default',
internetAccess: true, isDefault: true}`; in both resolution cases the
resolved id is stored in the cache. -/
theorem run_environment_resolution
    (parse : List Char → Option MessageStreamEvent)
    (cb : Option (MessageStreamEvent → Bool))
    (cache optTid : Option String) (srv : RunServerResponses) :
    (∀ eid : String, eid ≠ "" →
      (clientRun parse cb cache (some eid) optTid srv).envUsed = eid
      ∧ (clientRun parse cb cache (some eid) optTid srv).newCache = cache
      ∧ ((clientRun parse cb cache (some eid) optTid srv).calls.filter
          isEnvResolutionCall) = [])
    ∧ (∀ cid : String, cid ≠ "" →
      (clientRun parse cb (some cid) none optTid srv).envUsed = cid
      ∧ (clientRun parse cb (some cid) none optTid srv).newCache = some cid
      ∧ ((clientRun parse cb (some cid) none optTid srv).calls.filter
          isEnvResolutionCall) = [])
    ∧ (strTruthy cache = false →
      (∀ env, srv.envList.find? (fun e => e.isDefault) = some env →
        (clientRun parse cb cache none optTid srv).envUsed = env.id
        ∧ (clientRun parse cb cache none optTid srv).newCache = some env.id
        ∧ ((clientRun parse cb cache none optTid srv).calls.filter
            isEnvResolutionCall) = [ApiCall.listEnvironments])
      ∧ (srv.envList.find? (fun e => e.isDefault) = none →
        (clientRun parse cb cache none optTid srv).envUsed = srv.envCreate.id
        ∧ (clientRun parse cb cache none optTid srv).newCache =
            some srv.envCreate.id
        ∧ ((clientRun parse cb cache none optTid srv).calls.filter
            isEnvResolutionCall) =
          [ApiCall.listEnvironments,
           ApiCall.createEnvironment "default" true true])) := by
  refine ⟨?_, ?_, ?_⟩
  · intro eid heid
    have hE : strTruthy (some eid) = true := by
      simp [strTruthy_some, heid]
    by_cases hT : strTruthy optTid = true <;>
      simp [clientRun, hE, hT, isEnvResolutionCall]
  · intro cid hcid
    have hC : strTruthy (some cid) = true := by
      simp [strTruthy_some, hcid]
    by_cases hT : strTruthy optTid = true <;>
      simp [clientRun, ensureDefaultEnvironment, strTruthy_none, hC, hT,
        isEnvResolutionCall]
  · intro hC
    constructor
    · intro env hF
      by_cases hT : strTruthy optTid = true <;>
        simp [clientRun, ensureDefaultEnvironment, hC, hF, hT,
          strTruthy_none, isEnvResolutionCall]
    · intro hF
      by_cases hT : strTruthy optTid = true <;>
        simp [clientRun, ensureDefaultEnvironment, hC, hF, hT,
          strTruthy_none, isEnvResolutionCall]

def envFix : Environment := { id := "env_1", isDefault := true }

def srvFix : RunServerResponses :=
  { envList := [envFix],
    envCreate := { id := "env_new", isDefault := true },
    threadCreate := "thread_1",
    messageTransport :=
      Except.ok (some { chunks := [dataLine pHi ++ dataLine pDone],
                        readFailure := none }) }

/-- Witness for C7: an explicit environment id is used verbatim with no
resolution calls. -/
theorem run_environment_resolution_witness :
    (clientRun parseFix none none (some "env_7") none srvFix).envUsed =
        "env_7"
    ∧ (clientRun parseFix none none (some "env_7") none srvFix).newCache =
        none
    ∧ ((clientRun parseFix none none (some "env_7") none srvFix).calls.filter
        isEnvResolutionCall) = [] :=
  (run_environment_resolution parseFix none none none srvFix).1 "env_7"
    (by decide)

/-- Claim C8: thread handling in `run()` — a supplied (non-empty)
`threadId` is returned verbatim and no thread is created; with no
`threadId` a thread is created for the resolved environment and the
server-assigned id is returned (non-empty whenever the server's id is);
and two sequential no-threadId `run` calls on a fresh client (empty cache,
the second call seeing the first call's cache) make at most two
environment-list calls. -/
theorem run_thread_resolution
    (parse : List Char → Option MessageStreamEvent)
    (cb : Option (MessageStreamEvent → Bool))
    (cache optEnv : Option String) (srv srv2 : RunServerResponses) :
    (∀ tid : String, tid ≠ "" →
      ((clientRun parse cb cache optEnv (some tid) srv).calls.filter
          isThreadCreateCall) = []
      ∧ (∀ r, (clientRun parse cb cache optEnv (some tid) srv).result =
          Except.ok r → r.threadId = tid))
    ∧ (((clientRun parse cb cache optEnv none srv).calls.filter
          isThreadCreateCall) =
        [ApiCall.createThread
          (clientRun parse cb cache optEnv none srv).envUsed]
      ∧ (∀ r, (clientRun parse cb cache optEnv none srv).result =
          Except.ok r → r.threadId = srv.threadCreate))
    ∧ (srv.threadCreate ≠ "" → srv2.threadCreate ≠ "" →
      (((clientRun parse cb none none none srv).calls ++
        (clientRun parse cb
          (clientRun parse cb none none none srv).newCache
          none none srv2).calls).filter isListEnvCall).length ≤ 2
      ∧ (∀ r, (clientRun parse cb none none none srv).result =
          Except.ok r → r.threadId ≠ "")
      ∧ (∀ r, (clientRun parse cb
            (clientRun parse cb none none none srv).newCache
            none none srv2).result = Except.ok r → r.threadId ≠ "")) := by
  refine ⟨?_, ⟨?_, ?_⟩, ?_⟩
  · intro tid htid
    have hT : strTruthy (some tid) = true := by
      simp [strTruthy_some, htid]
    constructor
    · by_cases hE : strTruthy optEnv = true <;>
        by_cases hC : strTruthy cache = true <;>
        cases hF : srv.envList.find? (fun e => e.isDefault) <;>
        simp [clientRun, ensureDefaultEnvironment, hE, hC, hF, hT,
          isThreadCreateCall]
    · intro r hr
      rcases hs : sendMessage parse cb srv.messageTransport with e | v <;>
        simp [clientRun, hT, hs] at hr
      · rw [← hr]
  · by_cases hE : strTruthy optEnv = true <;>
      by_cases hC : strTruthy cache = true <;>
      cases hF : srv.envList.find? (fun e => e.isDefault) <;>
      simp [clientRun, ensureDefaultEnvironment, hE, hC, hF,
        strTruthy_none, isThreadCreateCall]
  · intro r hr
    rcases hs : sendMessage parse cb srv.messageTransport with e | v <;>
      simp [clientRun, strTruthy_none, hs] at hr
    · rw [← hr]
  · intro h1 h2
    refine ⟨?_, ?_, ?_⟩
    · rw [List.filter_append, List.length_append]
      have a1 := clientRun_list_calls_le_one parse cb none none none srv
      have a2 := clientRun_list_calls_le_one parse cb
        (clientRun parse cb none none none srv).newCache none none srv2
      omega
    · intro r hr
      rcases hs : sendMessage parse cb srv.messageTransport with e | v <;>
        simp [clientRun, strTruthy_none, hs] at hr
      · rw [← hr]; exact h1
    · intro r hr
      rcases hs : sendMessage parse cb srv2.messageTransport with e | v <;>
        simp [clientRun, strTruthy_none, hs] at hr
      · rw [← hr]; exact h2

/-- Witness for C8: a supplied thread id is reused verbatim and no thread
creation call is made. -/
theorem run_thread_resolution_witness :
    ((clientRun parseFix none none none (some "thread_42") srvFix).calls.filter
        isThreadCreateCall) = []
    ∧ (∀ r, (clientRun parseFix none none none (some "thread_42")
        srvFix).result = Except.ok r → r.threadId = "thread_42") :=
  (run_thread_resolution parseFix none none none srvFix srvFix).1
    "thread_42" (by decide)

end ComputerAgentsSdk
